import Mathlib

/-!
Shallow embedding of the authentication / authorization core of the
`go-project-structure` repository (package `internal/auth`): the status
enumeration with its JSON / SQL codecs, the user and role data model, the
permission-evaluation functions (`roleToPermissions`,
`checkMissingPermissions`, `CanI`), the claims context helpers
(`ClaimsFromContext`), token minting (`genToken`) and the `Login` /
`RefreshToken` flows.

Conventions of the embedding:
- machine time is modelled as `Int` seconds (1 hour = 3600, 7 days = 604800);
- the database pool is modelled as a `Store` of two read functions mirroring
  `getUserByUsername` and `listRolesByUsername`;
- `bcrypt.CompareHashAndPassword` and `time.Format(time.RFC3339)` are opaque
  collaborators of the core, modelled as function parameters in `Env`;
- PASETO v4.local encryption is modelled symbolically: an encrypted token is
  the pair of the (symbolic) key it was encrypted under and the plaintext
  token data; decryption succeeds exactly on a key match;
- Go errors are an inductive type separating `rpcstatus.Error(code, msg)`
  values, `errors.New` plain errors, and the sentinel `ErrUserNotFound`.
-/

namespace GoAuth

/-- gRPC status codes used by the `auth` package. -/
inductive Code where
  | Unauthenticated
  | PermissionDenied
  | InvalidArgument
  | NotFound
  | Internal
deriving DecidableEq, Repr

/-- One entry of `google.rpc.BadRequest.field_violations`. -/
structure FieldViolation where
  field : String
  description : String
deriving DecidableEq, Repr

/-- A Go `error` value as produced by this package: either an
`rpcstatus.Error(code, msg)`, an rpc status carrying `BadRequest` details,
a plain `errors.New(msg)`, or the sentinel `ErrUserNotFound`. -/
inductive GoErr where
  | rpcStatus (code : Code) (msg : String)
  | rpcStatusDetails (code : Code) (msg : String) (violations : List FieldViolation)
  | plain (msg : String)
  | userNotFound
deriving DecidableEq, Repr

/-- Whether a Go error is an invalid-argument rpc status. -/
def GoErr.isInvalidArgument : GoErr → Bool
  | .rpcStatus .InvalidArgument _ => true
  | .rpcStatusDetails .InvalidArgument _ _ => true
  | _ => false

/-- Whether a Go error is an `Unauthenticated` rpc status
(the package's `AuthenticationError`). -/
def GoErr.isUnauthenticated : GoErr → Bool
  | .rpcStatus .Unauthenticated _ => true
  | .rpcStatusDetails .Unauthenticated _ _ => true
  | _ => false

/-! ## The `status` enumeration (src/unnamed/part_001, `type status int`) -/

/-- Go `type status int`. -/
abbrev status := Int

def StatusUnSpecified : status := 0
def StatusDisabled : status := 1
def StatusTerminated : status := 2
def StatusEnabled : status := 3

/-- The `statusNames` map. -/
def statusNames (s : status) : Option String :=
  if s = StatusUnSpecified then some "UNSPECIFIED"
  else if s = StatusEnabled then some "ENABLED"
  else if s = StatusDisabled then some "DISABLED"
  else if s = StatusTerminated then some "TERMINATED"
  else none

/-- The `statusValues` map: the serialization mapping table from
enumeration names to `status` values. -/
def statusValues (s : String) : Option status :=
  if s = "UNSPECIFIED" then some StatusUnSpecified
  else if s = "ENABLED" then some StatusEnabled
  else if s = "DISABLED" then some StatusDisabled
  else if s = "TERMINATED" then some StatusTerminated
  else none

/-- `status.String()`: the name from `statusNames`, or `Status(%d)`. -/
def statusString (s : status) : String :=
  match statusNames s with
  | some v => v
  | none => "Status(" ++ toString s ++ ")"

/-- Digit run to a number: `none` unless the characters are one or more
decimal digits (the digit section of Go `strconv.Atoi`). -/
def parseDigits (cs : List Char) : Option Nat :=
  if cs.isEmpty then none
  else cs.foldl
    (fun acc c => acc.bind (fun n => if c.isDigit then some (n * 10 + (c.toNat - 48)) else none))
    (some 0)

/-- Go `strconv.Atoi`: an optional sign followed by one or more decimal
digits (the int64 range check is not modelled; it only shrinks the set of
accepted strings). -/
def goAtoi (s : String) : Option Int :=
  match s.data with
  | '+' :: rest => (parseDigits rest).map Int.ofNat
  | '-' :: rest => (parseDigits rest).map (fun n => -(n : Int))
  | cs => (parseDigits cs).map Int.ofNat

/-- `b[1 : len(b)-1]` on a payload of at least two bytes: strip the first
and last byte (the JSON quotes). Only applied under that length guard;
on shorter payloads the Go slice expression panics instead (see
`statusUnmarshalJSON`). -/
def stripQuotes (b : String) : String := ⟨(b.data.drop 1).dropLast⟩

/-- The outcome of a Go method that may return a value, return an error,
or hit a runtime panic. -/
inductive GoResult (α : Type) where
  | ok (a : α)
  | err (msg : String)
  | panicked
deriving DecidableEq, Repr

/-- `status.UnmarshalJSON` on the raw JSON bytes `b`; `old` is the receiver
value, returned unchanged on `null`. On any other payload shorter than two
bytes the slice expression `b[1 : len(b)-1]` panics with a slice-bounds
error at runtime. Result is the new status, the returned error, or the
panic. -/
def statusUnmarshalJSON (old : status) (b : String) : GoResult status :=
  if b = "null" then .ok old
  else if b.length < 2 then .panicked
  else
    let inner := stripQuotes b
    match statusValues inner with
    | some v => .ok v
    | none =>
      match goAtoi inner with
      | some v => .ok v
      | none => .err ("invalid status: " ++ inner)

/-- The `any` source value handed to `status.Scan` by the SQL driver. -/
inductive SqlSrc where
  | null
  | str (s : String)
  | bytes (s : String)
  | other
deriving DecidableEq, Repr

/-- `status.Scan`; `old` is the receiver value, returned unchanged on a
nil source. -/
def statusScan (old : status) (src : SqlSrc) : Except String status :=
  match src with
  | .null => .ok old
  | .str s =>
    match statusValues s with
    | some v => .ok v
    | none => .error ("invalid status: " ++ s)
  | .bytes s =>
    match statusValues s with
    | some v => .ok v
    | none => .error ("invalid status: " ++ s)
  | .other => .error "invalid status"

/-! ## Data model -/

/-- `auth.Claims`: the identity snapshot embedded in a token. -/
structure Claims where
  ID : String
  Username : String
  DisplayName : String
deriving DecidableEq, Repr

/-- `auth.User` (exported fields plus the unexported ones read by the core;
`hashedPassword` models the `[]byte` bcrypt hash as a string). -/
structure User where
  ID : String
  Username : String
  DisplayName : String
  Status : status
  CreatedAt : Int
  hashedPassword : String
  createdBy : String
  updatedBy : String
  updatedAt : Int
deriving DecidableEq, Repr

/-- `User.IsEnabled`. -/
def User.IsEnabled (u : User) : Bool := u.Status = StatusEnabled

/-- `User.toClaims`. -/
def User.toClaims (u : User) : Claims :=
  { ID := u.ID, Username := u.Username, DisplayName := u.DisplayName }

/-- `auth.Role`. -/
structure Role where
  ID : Int
  Name : String
  DisplayName : String
  Permissions : List String
deriving DecidableEq, Repr

/-! ## Access decision evaluator (src/unnamed/part_000) -/

/-- `roleToPermissions`: concatenate the permission lists of the roles. -/
def roleToPermissions (rs : List Role) : List String :=
  rs.foldl (fun ps r => ps ++ r.Permissions) []

/-- `checkMissingPermissions(wanted, having)`: membership in the set built
from `having` is membership in the `having` list; the loop appends each
`wanted` entry not present. -/
def checkMissingPermissions (wanted having : List String) : List String :=
  wanted.foldl (fun missing p => if having.contains p then missing else missing ++ [p]) []

/-! ## Claims context (src/internal/auth/claims.go) -/

/-- A request context as far as this core reads it: it either carries a
claims value under `claimsKey` or it does not. -/
abbrev Ctx := Option Claims

/-- `ClaimsFromContext`: the claims from the context, or empty claims. -/
def ClaimsFromContext (ctx : Ctx) : Claims :=
  match ctx with
  | some c => c
  | none => { ID := "", Username := "", DisplayName := "" }

/-! ## Store and environment -/

/-- The database reads used by the core: `getUserByUsername` (which yields
`ErrUserNotFound` on zero rows) and `listRolesByUsername` (which yields an
empty list, not an error, for a principal with zero roles). -/
structure Store where
  users : String → Except GoErr User
  roles : String → Except GoErr (List Role)

/-- Ambient collaborators: the bcrypt comparison (`true` iff
`bcrypt.CompareHashAndPassword(hash, secret) == nil`) and the RFC 3339
clock formatting used for the token footer. -/
structure Env where
  bcryptCompare : String → String → Bool
  rfc3339 : Int → String

/-- `User.ComparePassword`. -/
def ComparePassword (env : Env) (u : User) (password : String) : Bool :=
  env.bcryptCompare u.hashedPassword password

/-! ## PASETO tokens (symbolic model) -/

/-- The plaintext contents of a PASETO token as built by `genToken`. -/
structure TokenData where
  subject : String
  issuedAt : Int
  notBefore : Int
  expiration : Int
  footer : String
  claims : Claims
deriving DecidableEq, Repr

/-- A v4.local encrypted token: symbolically, the key it was encrypted
under paired with its plaintext. -/
structure EncTok where
  key : Nat
  data : TokenData
deriving DecidableEq, Repr

/-- `auth.Token`: the minted pair. -/
structure Token where
  Access : EncTok
  Refresh : EncTok
deriving DecidableEq, Repr

/-- The `Auth` service state read by the core: the two symmetric keys. -/
structure Auth where
  aKey : Nat
  rKey : Nat

/-- `paseto.MakeParser([NotExpired, ValidAt(now)]).ParseV4Local(key, tok)`:
decryption succeeds iff the key matches, then the temporal rules check
issued-at and not-before are not in the future and the token has not
expired. -/
def parseV4Local (key : Nat) (tok : EncTok) (now : Int) : Except GoErr TokenData :=
  if tok.key = key ∧ tok.data.issuedAt ≤ now ∧ tok.data.notBefore ≤ now ∧ now ≤ tok.data.expiration
  then .ok tok.data
  else .error (.plain "token parse failed")

/-! ## Service operations -/

/-- `auth.LoginReq`. -/
structure LoginReq where
  Username : String
  Password : String
deriving DecidableEq, Repr

/-- The generic bad-credentials message used at the login boundary. -/
def msgCredentials : String :=
  "Your credentials not valid. Please check your username and password and try again."

/-- The generic bad-token message used at the enabled check and the
refresh boundary. -/
def msgToken : String :=
  "Your credentials not valid. Please check your token and try again."

/-- `LoginReq.Validate`: field violations for empty username/password,
wrapped in an invalid-argument status when any exist. -/
def LoginReq.Validate (r : LoginReq) : Option GoErr :=
  let violations :=
    (if r.Username = "" then [⟨"username", "Username must not be empty"⟩] else [])
    ++ (if r.Password = "" then [(⟨"password", "Password must not be empty"⟩ : FieldViolation)] else [])
  if 0 < violations.length then
    some (.rpcStatusDetails .InvalidArgument
      "Credentials are not valid or incomplete. Please check the errors and try again, see details for more information."
      violations)
  else none

/-- `Auth.genToken`: build one token (subject, issued-at, not-before,
expiration now + 1h, RFC 3339 footer, embedded claims), encrypt under the
access key; re-set expiration to now + 7d and encrypt under the refresh
key. (`t.Set("profile", ...)` cannot fail on a `Claims` value, so the
embedding is total.) -/
def genToken (env : Env) (s : Auth) (now : Int) (u : User) : Token :=
  let t : TokenData :=
    { subject := u.Username
      issuedAt := now
      notBefore := now
      expiration := now + 3600
      footer := env.rfc3339 now
      claims := u.toClaims }
  let accessToken : EncTok := ⟨s.aKey, t⟩
  let t2 : TokenData := { t with expiration := now + 3600 * 24 * 7 }
  let refreshToken : EncTok := ⟨s.rKey, t2⟩
  { Access := accessToken, Refresh := refreshToken }

/-- `Auth.Login`: validate the request, fetch the user (`ErrUserNotFound`
becomes an Unauthenticated status), compare the password, check enabled,
then mint the pair. -/
def Login (env : Env) (s : Auth) (st : Store) (now : Int) (req : LoginReq) :
    Except GoErr Token :=
  match req.Validate with
  | some err => .error err
  | none =>
    match st.users req.Username with
    | .error e =>
      if e = GoErr.userNotFound then .error (.rpcStatus .Unauthenticated msgCredentials)
      else .error e
    | .ok user =>
      if ¬ ComparePassword env user req.Password then
        .error (.rpcStatus .Unauthenticated msgCredentials)
      else if ¬ user.IsEnabled then
        .error (.rpcStatus .Unauthenticated msgToken)
      else
        .ok (genToken env s now user)

/-- `auth.NewTokenReq`; `none` models the empty token string. -/
abbrev NewTokenReq := Option EncTok

/-- `Auth.RefreshToken`: reject an empty token, parse with the refresh
key, read the embedded `profile` claims, fetch the user named by the
claims (`ErrUserNotFound` becomes an Unauthenticated status), check
enabled, then mint a fresh pair. -/
def RefreshToken (env : Env) (s : Auth) (st : Store) (now : Int) (req : NewTokenReq) :
    Except GoErr Token :=
  match req with
  | none => .error (.rpcStatus .Unauthenticated msgToken)
  | some tok =>
    match parseV4Local s.rKey tok now with
    | .error _ => .error (.rpcStatus .Unauthenticated msgToken)
    | .ok t =>
      let claims := t.claims
      match st.users claims.Username with
      | .error e =>
        if e = GoErr.userNotFound then .error (.rpcStatus .Unauthenticated msgToken)
        else .error e
      | .ok user =>
        if ¬ user.IsEnabled then
          .error (.rpcStatus .Unauthenticated msgToken)
        else
          .ok (genToken env s now user)

/-- Go `fmt.Sprintf("%v", xs)` on a string slice: the elements
space-separated inside square brackets. -/
def goSliceFmt (xs : List String) : String :=
  "[" ++ String.intercalate " " xs ++ "]"

/-- The permission-denied message of `CanI`. -/
def msgPermissionDenied (missed : List String) : String :=
  "You do not have sufficient permissions. Required " ++ goSliceFmt missed
    ++ " to perform this action"

/-- `Auth.CanI`: reject an empty permission list, read the claims from the
context, list the roles of the claims' username, and report the missing
permissions as a permission-denied status; `none` is success. -/
def CanI (st : Store) (ctx : Ctx) (permissions : List String) : Option GoErr :=
  if permissions.length = 0 then some (.plain "no permissions specified")
  else
    let claims := ClaimsFromContext ctx
    match st.roles claims.Username with
    | .error e => some e
    | .ok roles =>
      let missed := checkMissingPermissions permissions (roleToPermissions roles)
      if 0 < missed.length then
        some (.rpcStatus .PermissionDenied (msgPermissionDenied missed))
      else none

/-- `Auth.ListMyRoles`: the roles of the context claims' username. -/
def ListMyRoles (st : Store) (ctx : Ctx) : Except GoErr (List Role) :=
  st.roles (ClaimsFromContext ctx).Username

/-! ## Concrete fixtures used by witnesses and counterexamples -/

/-- A disabled user fixture. -/
def cexUser : User :=
  { ID := "u1", Username := "alice", DisplayName := "Alice",
    Status := StatusDisabled, CreatedAt := 0, hashedPassword := "h",
    createdBy := "", updatedBy := "", updatedAt := 0 }

/-- A store whose only user is `cexUser` and where every username has zero
roles. -/
def cexStore : Store :=
  { users := fun _ => .ok cexUser, roles := fun _ => .ok [] }

/-- An environment whose bcrypt comparison always succeeds (the supplied
secret is correct). -/
def envTrue : Env := { bcryptCompare := fun _ _ => true, rfc3339 := fun _ => "ts" }

/-- An environment whose bcrypt comparison always fails (the supplied
secret is incorrect). -/
def envFalse : Env := { bcryptCompare := fun _ _ => false, rfc3339 := fun _ => "ts" }

/-- A service fixture with distinct symbolic keys. -/
def auth0 : Auth := { aKey := 0, rKey := 1 }

/-- A refresh token fixture for `cexUser`, encrypted under `auth0.rKey`
and temporally valid at time 0. -/
def cexTok : EncTok :=
  ⟨1, { subject := "alice", issuedAt := 0, notBefore := 0, expiration := 10,
        footer := "ts", claims := ⟨"u1", "alice", "Alice"⟩ }⟩

/-- The role fixtures of the permission-union example. -/
def roleA : Role := { ID := 1, Name := "A", DisplayName := "A", Permissions := ["x:read"] }

def roleB : Role := { ID := 2, Name := "B", DisplayName := "B", Permissions := ["x:read", "x:write"] }

/-! ## Helper lemmas -/

/-- The fold of `checkMissingPermissions` from any accumulator appends the
filtered wanted list. -/
theorem checkMissing_foldl_eq (having : List String) (wanted acc : List String) :
    wanted.foldl (fun missing p => if having.contains p then missing else missing ++ [p]) acc
      = acc ++ wanted.filter (fun p => !(having.contains p)) := by
  induction wanted generalizing acc with
  | nil => simp
  | cons p ps ih =>
    by_cases h : having.contains p
    · have hm : p ∈ having := by simpa using h
      rw [List.foldl_cons, if_pos h, List.filter_cons, ih]
      simp [hm]
    · have hm : p ∉ having := by simpa using h
      rw [List.foldl_cons, if_neg h, List.filter_cons, ih]
      simp [hm]

/-- `checkMissingPermissions` is the order-preserving filter of the wanted
list by non-membership in the having list. -/
theorem checkMissingPermissions_eq_filter (wanted having : List String) :
    checkMissingPermissions wanted having
      = wanted.filter (fun p => !(having.contains p)) := by
  rw [checkMissingPermissions, checkMissing_foldl_eq, List.nil_append]

/-- Membership characterisation of `checkMissingPermissions`. -/
theorem mem_checkMissingPermissions (wanted having : List String) (p : String) :
    p ∈ checkMissingPermissions wanted having ↔ p ∈ wanted ∧ p ∉ having := by
  rw [checkMissingPermissions_eq_filter, List.mem_filter]
  simp

/-- The fold of `roleToPermissions` from any accumulator appends the
joined permission lists. -/
theorem roleToPermissions_foldl_eq (rs : List Role) (acc : List String) :
    rs.foldl (fun ps r => ps ++ r.Permissions) acc
      = acc ++ (rs.map Role.Permissions).flatten := by
  induction rs generalizing acc with
  | nil => simp
  | cons r rest ih => simp [List.foldl_cons, ih]

/-- `roleToPermissions` is the concatenation of the roles' permission
lists. -/
theorem roleToPermissions_eq_flatten (rs : List Role) :
    roleToPermissions rs = (rs.map Role.Permissions).flatten := by
  rw [roleToPermissions, roleToPermissions_foldl_eq, List.nil_append]

/-- Against an empty having list, every wanted permission is missing. -/
theorem checkMissingPermissions_empty_having (perms : List String) :
    checkMissingPermissions perms (roleToPermissions []) = perms := by
  rw [checkMissingPermissions_eq_filter]
  simp [roleToPermissions]

/-- `CanI` against a store that yields zero roles for the context's
username denies a non-empty request, listing every requested permission
as missing. -/
theorem CanI_zero_roles_denied (st : Store) (ctx : Ctx) (perms : List String)
    (hroles : st.roles (ClaimsFromContext ctx).Username = .ok [])
    (hne : perms ≠ []) :
    CanI st ctx perms
      = some (.rpcStatus .PermissionDenied (msgPermissionDenied perms)) := by
  have hlen : ¬ perms.length = 0 := by simpa [List.length_eq_zero] using hne
  simp only [CanI, if_neg hlen, hroles, checkMissingPermissions_empty_having]
  rw [if_pos (List.length_pos.mpr hne)]

/-! ## Claim theorems -/

/-- C1: `checkMissingPermissions(want, have)` returns exactly the sublist
of `want`, in the input order of `want`, whose entries do not occur in
`have`; `CanI` grants access (returns no error) iff that missing list is
empty; and the two concrete examples from the spec hold. -/
theorem c1_checkPermissions_missing_and_grant :
    (∀ hav want, checkMissingPermissions want hav
        = want.filter (fun p => !(hav.contains p)))
    ∧ (∀ hav want p, p ∈ checkMissingPermissions want hav ↔ p ∈ want ∧ p ∉ hav)
    ∧ (∀ hav want, (checkMissingPermissions want hav).Sublist want)
    ∧ (∀ (st : Store) (ctx : Ctx) (perms : List String) (roles : List Role),
        perms ≠ [] →
        st.roles (ClaimsFromContext ctx).Username = .ok roles →
        (CanI st ctx perms = none
          ↔ checkMissingPermissions perms (roleToPermissions roles) = []))
    ∧ checkMissingPermissions ["x:read", "x:write"] ["x:read"] = ["x:write"]
    ∧ checkMissingPermissions ["x:read"] ["x:read", "x:write"] = [] := by
  refine ⟨fun hav want => checkMissingPermissions_eq_filter want hav,
    fun hav want p => mem_checkMissingPermissions want hav p,
    fun hav want => ?_, ?_, by decide, by decide⟩
  · rw [checkMissingPermissions_eq_filter]
    exact List.filter_sublist want
  · intro st ctx perms roles hne hroles
    have hlen : ¬ perms.length = 0 := by simpa [List.length_eq_zero] using hne
    simp only [CanI, if_neg hlen, hroles]
    constructor
    · intro h
      by_contra hmiss
      have hpos : 0 < (checkMissingPermissions perms (roleToPermissions roles)).length := by
        cases hcm : checkMissingPermissions perms (roleToPermissions roles) with
        | nil => exact absurd hcm hmiss
        | cons a l => simp
      rw [if_pos hpos] at h
      exact Option.noConfusion h
    · intro h
      rw [h]
      simp

/-- C1 witness: the grant-iff conjunct at a concrete store, context and
permission list. -/
theorem c1_witness :
    CanI cexStore none ["users:read"] = none
      ↔ checkMissingPermissions ["users:read"] (roleToPermissions []) = [] :=
  c1_checkPermissions_missing_and_grant.2.2.2.1 cexStore none ["users:read"] []
    (by decide) rfl

/-- C4: the effective permission set is the union over the assigned roles
of their permission sets, and duplicate names across roles collapse to one
element (the roles `A:[x:read]`, `B:[x:read, x:write]` resolve to
`x:read, x:write`). -/
theorem c4_effective_permissions_union :
    (∀ (rs : List Role) (p : String),
        p ∈ roleToPermissions rs ↔ ∃ r ∈ rs, p ∈ r.Permissions)
    ∧ (roleToPermissions [roleA, roleB]).dedup = ["x:read", "x:write"] := by
  constructor
  · intro rs p
    rw [roleToPermissions_eq_flatten, List.mem_flatten]
    constructor
    · rintro ⟨l, hl, hp⟩
      obtain ⟨r, hr, rfl⟩ := List.mem_map.1 hl
      exact ⟨r, hr, hp⟩
    · rintro ⟨r, hr, hp⟩
      exact ⟨r.Permissions, List.mem_map_of_mem _ hr, hp⟩
  · decide

/-- C2 counterexample: at the same concrete user (disabled) and request,
an incorrect secret and a disabled status both yield an Unauthenticated
error, but with different messages, so the two failures are
distinguishable by message. -/
theorem c2_counterexample_messages_differ :
    Login envFalse auth0 cexStore 0 ⟨"alice", "pw"⟩
        = .error (.rpcStatus .Unauthenticated msgCredentials)
    ∧ Login envTrue auth0 cexStore 0 ⟨"alice", "pw"⟩
        = .error (.rpcStatus .Unauthenticated msgToken)
    ∧ msgCredentials ≠ msgToken := by
  refine ⟨rfl, rfl, by decide⟩

/-- C2 (amended): an incorrect secret and a non-enabled status both make
login fail with an Unauthenticated (authentication) error, but the
messages are not identical: the wrong-secret branch reports the
username/password message, the non-enabled branch the token message. -/
theorem c2_login_failures_unauthenticated (env : Env) (s : Auth) (st : Store)
    (now : Int) (req : LoginReq) (u : User)
    (hval : req.Validate = none) (hu : st.users req.Username = .ok u) :
    (ComparePassword env u req.Password = false →
        Login env s st now req = .error (.rpcStatus .Unauthenticated msgCredentials))
    ∧ (ComparePassword env u req.Password = true → u.IsEnabled = false →
        Login env s st now req = .error (.rpcStatus .Unauthenticated msgToken))
    ∧ (GoErr.rpcStatus .Unauthenticated msgCredentials).isUnauthenticated = true
    ∧ (GoErr.rpcStatus .Unauthenticated msgToken).isUnauthenticated = true
    ∧ msgCredentials ≠ msgToken := by
  refine ⟨fun hpw => ?_, fun hpw hen => ?_, rfl, rfl, by decide⟩
  · simp [Login, hval, hu, hpw]
  · simp [Login, hval, hu, hpw, hen]

/-- C2 witness: the amended theorem at the concrete disabled user. -/
theorem c2_witness :
    Login envFalse auth0 cexStore 0 ⟨"alice", "pw"⟩
        = .error (.rpcStatus .Unauthenticated msgCredentials)
    ∧ Login envTrue auth0 cexStore 0 ⟨"alice", "pw"⟩
        = .error (.rpcStatus .Unauthenticated msgToken) :=
  ⟨(c2_login_failures_unauthenticated envFalse auth0 cexStore 0 ⟨"alice", "pw"⟩
      cexUser rfl rfl).1 rfl,
   (c2_login_failures_unauthenticated envTrue auth0 cexStore 0 ⟨"alice", "pw"⟩
      cexUser rfl rfl).2.1 rfl rfl⟩

/-- C3: for every verified principal and mint time, the minted access
token is encrypted under the access key and expires exactly one hour
after the mint time, and the refresh token is encrypted under the refresh
key, expires exactly seven days after the mint time, and carries the same
subject, issued-at, not-before, footer and embedded claims as the access
token. -/
theorem c3_genToken_pair_shape (env : Env) (s : Auth) (now : Int) (u : User) :
    (genToken env s now u).Access.key = s.aKey
    ∧ (genToken env s now u).Refresh.key = s.rKey
    ∧ (genToken env s now u).Access.data.expiration = now + 3600
    ∧ (genToken env s now u).Refresh.data.expiration = now + 3600 * 24 * 7
    ∧ (genToken env s now u).Access.data.subject = u.Username
    ∧ (genToken env s now u).Access.data.issuedAt = now
    ∧ (genToken env s now u).Access.data.notBefore = now
    ∧ (genToken env s now u).Access.data.footer = env.rfc3339 now
    ∧ (genToken env s now u).Access.data.claims = u.toClaims
    ∧ (genToken env s now u).Refresh.data.subject
        = (genToken env s now u).Access.data.subject
    ∧ (genToken env s now u).Refresh.data.issuedAt
        = (genToken env s now u).Access.data.issuedAt
    ∧ (genToken env s now u).Refresh.data.notBefore
        = (genToken env s now u).Access.data.notBefore
    ∧ (genToken env s now u).Refresh.data.footer
        = (genToken env s now u).Access.data.footer
    ∧ (genToken env s now u).Refresh.data.claims
        = (genToken env s now u).Access.data.claims :=
  ⟨rfl, rfl, rfl, rfl, rfl, rfl, rfl, rfl, rfl, rfl, rfl, rfl, rfl, rfl⟩

/-- C5 counterexample: an empty permission list makes `CanI` fail with the
plain error `no permissions specified`, which is not an invalid-argument
rpc status. -/
theorem c5_counterexample_plain_error :
    CanI cexStore none [] = some (.plain "no permissions specified")
    ∧ (GoErr.plain "no permissions specified").isInvalidArgument = false :=
  ⟨rfl, rfl⟩

/-- C5 (amended): an empty want list is rejected before any permission
resolution is attempted — the result is the same constant error for every
store and context — but the rejection is a plain error from `errors.New`,
not an invalid-argument status. -/
theorem c5_empty_want_rejected_early (st : Store) (ctx : Ctx) :
    CanI st ctx [] = some (.plain "no permissions specified")
    ∧ (GoErr.plain "no permissions specified").isInvalidArgument = false :=
  ⟨rfl, rfl⟩

/-- A store in which no username exists (`getUserByUsername` always yields
`ErrUserNotFound`) and every username has zero roles. -/
def cexStoreNF : Store :=
  { users := fun _ => .error .userNotFound, roles := fun _ => .ok [] }

/-- C6: a principal whose status is not enabled fails login with an
Unauthenticated error and fails refresh with the generic token message
even when the credentials / refresh token are otherwise valid, and a
successful login or refresh implies the looked-up principal was
enabled. -/
theorem c6_only_enabled_may_authenticate :
    (∀ (env : Env) (s : Auth) (st : Store) (now : Int) (req : LoginReq) (u : User),
        req.Validate = none → st.users req.Username = .ok u → u.IsEnabled = false →
        ∃ msg, Login env s st now req = .error (.rpcStatus .Unauthenticated msg))
    ∧ (∀ (env : Env) (s : Auth) (st : Store) (now : Int) (tok : EncTok)
        (t : TokenData) (u : User),
        parseV4Local s.rKey tok now = .ok t →
        st.users t.claims.Username = .ok u → u.IsEnabled = false →
        RefreshToken env s st now (some tok)
          = .error (.rpcStatus .Unauthenticated msgToken))
    ∧ (∀ (env : Env) (s : Auth) (st : Store) (now : Int) (req : LoginReq) (pair : Token),
        Login env s st now req = .ok pair →
        ∃ u, st.users req.Username = .ok u ∧ u.IsEnabled = true)
    ∧ (∀ (env : Env) (s : Auth) (st : Store) (now : Int) (rtok : NewTokenReq) (pair : Token),
        RefreshToken env s st now rtok = .ok pair →
        ∃ tok t u, rtok = some tok ∧ parseV4Local s.rKey tok now = .ok t
          ∧ st.users t.claims.Username = .ok u ∧ u.IsEnabled = true) := by
  refine ⟨?_, ?_, ?_, ?_⟩
  · intro env s st now req u hval hu hen
    by_cases hpw : ComparePassword env u req.Password = true
    · exact ⟨msgToken, by simp [Login, hval, hu, hpw, hen]⟩
    · exact ⟨msgCredentials, by simp [Login, hval, hu, hpw]⟩
  · intro env s st now tok t u hp hu hen
    simp [RefreshToken, hp, hu, hen]
  · intro env s st now req pair h
    cases hval : req.Validate with
    | some e => simp [Login, hval] at h
    | none =>
      cases hu : st.users req.Username with
      | error e =>
        by_cases he : e = GoErr.userNotFound <;> simp [Login, hval, hu, he] at h
      | ok u =>
        refine ⟨u, rfl, ?_⟩
        by_cases hpw : ComparePassword env u req.Password = true
        · by_cases hen : u.IsEnabled = true
          · exact hen
          · simp [Login, hval, hu, hpw, hen] at h
        · simp [Login, hval, hu, hpw] at h
  · intro env s st now rtok pair h
    cases rtok with
    | none => simp [RefreshToken] at h
    | some tok =>
      cases hp : parseV4Local s.rKey tok now with
      | error e => simp [RefreshToken, hp] at h
      | ok t =>
        cases hu : st.users t.claims.Username with
        | error e =>
          by_cases he : e = GoErr.userNotFound <;>
            simp [RefreshToken, hp, hu, he] at h
        | ok u =>
          by_cases hen : u.IsEnabled = true
          · exact ⟨tok, t, u, rfl, hp, hu, hen⟩
          · simp [RefreshToken, hp, hu, hen] at h

/-- C6 witness: refreshing with a temporally valid token of the concrete
disabled user fails with the Unauthenticated token message. -/
theorem c6_witness :
    RefreshToken envTrue auth0 cexStore 0 (some cexTok)
      = .error (.rpcStatus .Unauthenticated msgToken) :=
  c6_only_enabled_may_authenticate.2.1 envTrue auth0 cexStore 0 cexTok
    cexTok.data cexUser rfl rfl rfl

/-- C7: a principal with zero assigned roles resolves to an empty
permission set without an error, and every non-empty permission check for
it fails with a PermissionDenied error listing all requested permission
names as missing. -/
theorem c7_zero_roles_all_missing (st : Store) (ctx : Ctx) (perms : List String)
    (hroles : st.roles (ClaimsFromContext ctx).Username = .ok [])
    (hne : perms ≠ []) :
    ListMyRoles st ctx = .ok []
    ∧ roleToPermissions [] = []
    ∧ checkMissingPermissions perms (roleToPermissions []) = perms
    ∧ CanI st ctx perms
        = some (.rpcStatus .PermissionDenied (msgPermissionDenied perms)) :=
  ⟨hroles, rfl, checkMissingPermissions_empty_having perms,
   CanI_zero_roles_denied st ctx perms hroles hne⟩

/-- C7 witness: the concrete zero-role store denies a concrete check,
listing the requested permission as missing. -/
theorem c7_witness :
    ListMyRoles cexStore none = .ok []
    ∧ CanI cexStore none ["users:read"]
        = some (.rpcStatus .PermissionDenied (msgPermissionDenied ["users:read"])) :=
  ⟨(c7_zero_roles_all_missing cexStore none ["users:read"] rfl (by decide)).1,
   (c7_zero_roles_all_missing cexStore none ["users:read"] rfl (by decide)).2.2.2⟩

/-- C8: when the named principal does not exist in the store, login and
refresh both report the internal not-found sentinel as a generic
Unauthenticated error, never as a distinct not-found condition. -/
theorem c8_notfound_hidden_as_unauthenticated :
    (∀ (env : Env) (s : Auth) (st : Store) (now : Int) (req : LoginReq),
        req.Validate = none →
        st.users req.Username = .error .userNotFound →
        Login env s st now req = .error (.rpcStatus .Unauthenticated msgCredentials))
    ∧ (∀ (env : Env) (s : Auth) (st : Store) (now : Int) (tok : EncTok) (t : TokenData),
        parseV4Local s.rKey tok now = .ok t →
        st.users t.claims.Username = .error .userNotFound →
        RefreshToken env s st now (some tok)
          = .error (.rpcStatus .Unauthenticated msgToken))
    ∧ (∀ msg, (GoErr.rpcStatus .Unauthenticated msg).isUnauthenticated = true)
    ∧ (∀ msg c, GoErr.rpcStatus .Unauthenticated msg ≠ GoErr.rpcStatus .NotFound c) := by
  refine ⟨?_, ?_, fun msg => rfl, fun msg c h => by cases h⟩
  · intro env s st now req hval hnf
    simp [Login, hval, hnf]
  · intro env s st now tok t hp hnf
    simp [RefreshToken, hp, hnf]

/-- C8 witness: login and refresh against the concrete user-free store
yield the generic Unauthenticated errors. -/
theorem c8_witness :
    Login envTrue auth0 cexStoreNF 0 ⟨"alice", "pw"⟩
        = .error (.rpcStatus .Unauthenticated msgCredentials)
    ∧ RefreshToken envTrue auth0 cexStoreNF 0 (some cexTok)
        = .error (.rpcStatus .Unauthenticated msgToken) :=
  ⟨c8_notfound_hidden_as_unauthenticated.1 envTrue auth0 cexStoreNF 0
      ⟨"alice", "pw"⟩ rfl rfl,
   c8_notfound_hidden_as_unauthenticated.2.1 envTrue auth0 cexStoreNF 0
      cexTok cexTok.data rfl rfl⟩

/-- C9 counterexample: the raw JSON string `"7"` is not in the
serialization mapping table, yet `UnmarshalJSON` accepts it silently via
the `strconv.Atoi` branch, producing the raw (not even enumerated) status
value 7 instead of an error. -/
theorem c9_counterexample_numeric_accepted :
    statusValues "7" = none
    ∧ statusUnmarshalJSON StatusUnSpecified "\"7\"" = .ok 7
    ∧ statusNames 7 = none := by
  refine ⟨rfl, rfl, by decide⟩

/-- C9 (amended): `Scan` fails closed for every source string not in the
mapping table (and for non-string sources); `UnmarshalJSON` fails closed
with a returned error only for payloads of at least two bytes that are
neither `null`, nor a mapping-table name, nor a decimal integer literal —
integer strings are accepted as raw status values without validation, and
any non-`null` payload shorter than two bytes (e.g. a bare JSON number
digit) makes the slice expression panic at runtime instead of returning. -/
theorem c9_decode_fails_closed (old : status) :
    (∀ b, b ≠ "null" → ¬ b.length < 2 → statusValues (stripQuotes b) = none →
        goAtoi (stripQuotes b) = none →
        statusUnmarshalJSON old b = .err ("invalid status: " ++ stripQuotes b))
    ∧ (∀ b, b ≠ "null" → b.length < 2 → statusUnmarshalJSON old b = .panicked)
    ∧ (∀ s, statusValues s = none →
        statusScan old (.str s) = .error ("invalid status: " ++ s))
    ∧ (∀ s, statusValues s = none →
        statusScan old (.bytes s) = .error ("invalid status: " ++ s))
    ∧ statusScan old .other = .error "invalid status" := by
  refine ⟨?_, ?_, ?_, ?_, rfl⟩
  · intro b hb hlen hsv hatoi
    simp [statusUnmarshalJSON, hb, hlen, hsv, hatoi]
  · intro b hb hlen
    simp [statusUnmarshalJSON, hb, hlen]
  · intro s hsv
    simp [statusScan, hsv]
  · intro s hsv
    simp [statusScan, hsv]

/-- C9 witness: the unknown name `FOO` is rejected by both codecs, and the
one-byte payload `7` hits the panic path. -/
theorem c9_witness :
    statusUnmarshalJSON StatusUnSpecified "\"FOO\"" = .err "invalid status: FOO"
    ∧ statusScan StatusUnSpecified (.str "FOO") = .error "invalid status: FOO"
    ∧ statusUnmarshalJSON StatusUnSpecified "7" = .panicked :=
  ⟨(c9_decode_fails_closed StatusUnSpecified).1 "\"FOO\"" (by decide) (by decide) rfl rfl,
   (c9_decode_fails_closed StatusUnSpecified).2.2.1 "FOO" rfl,
   (c9_decode_fails_closed StatusUnSpecified).2.1 "7" (by decide) (by decide)⟩

/-- C10: a context carrying no claims yields the empty (zero-valued)
claims object, so a permission check on an unauthenticated context
resolves roles for the empty username and fails with a PermissionDenied
error (missing permissions), not with an Unauthenticated error. -/
theorem c10_no_claims_permission_denied (st : Store) (perms : List String)
    (hroles : st.roles "" = .ok []) (hne : perms ≠ []) :
    ClaimsFromContext none = { ID := "", Username := "", DisplayName := "" }
    ∧ CanI st none perms
        = some (.rpcStatus .PermissionDenied (msgPermissionDenied perms))
    ∧ (GoErr.rpcStatus .PermissionDenied (msgPermissionDenied perms)).isUnauthenticated
        = false :=
  ⟨rfl, CanI_zero_roles_denied st none perms hroles hne, rfl⟩

/-- C10 witness: the concrete store at a claims-free context. -/
theorem c10_witness :
    CanI cexStore none ["users:create"]
      = some (.rpcStatus .PermissionDenied (msgPermissionDenied ["users:create"])) :=
  (c10_no_claims_permission_denied cexStore ["users:create"] rfl (by decide)).2.1

end GoAuth
